import Mathlib

/-!
Shallow embedding of the marshal-decoder tool (src/main.py) and proofs about
its claims.  The external `marshal.loads` primitive is modelled as an abstract
function parameter; exceptions are modelled with the `Except` monad and
Python's `try/except` as an explicit catch combinator.
-/

namespace PyMarshal

/-- Python exceptions relevant to the tool. -/
inductive PyErr where
  | valueError (msg : String)
  | syntaxError
  | unicodeEncodeError
  | importError (msg : String)
  | exn (msg : String)
deriving DecidableEq, Repr

/-- Decoded marshal values (the value universe produced by `marshal.loads`).
`vcode` carries the code-object fields used by the tool:
argcount, varnames, consts, name, filename. -/
inductive MValue where
  | vnone
  | vbool (b : Bool)
  | vint (n : Int)
  | vstr (s : String)
  | vbytes (bs : List Nat)
  | vtuple (xs : List MValue)
  | vlist (xs : List MValue)
  | vdict (ps : List (MValue × MValue))
  | vset (xs : List MValue)
  | vcode (argcount : Nat) (varnames : List String) (consts : List MValue)
      (name : String) (filename : String)

/-- A Python code object (`types.CodeType`), as the fields the tool reads. -/
structure PyCode where
  argcount : Nat
  varnames : List String
  consts : List MValue
  name : String
  filename : String

/-- Python `try: body / except Exception as e: handler(e)` as a combinator. -/
def pyTryCatch {α : Type} (body : Except PyErr α) (handler : PyErr → Except PyErr α) :
    Except PyErr α :=
  match body with
  | .ok a => .ok a
  | .error e => handler e

def excToOption {α : Type} : Except PyErr α → Option α
  | .ok a => some a
  | .error _ => none

/-- The retry loop of `unmarshal_object`:
`for i in range(bound): try: return marshal.loads(data[i:]) except: pass`.
`i` is the current offset, the second argument the number of iterations left. -/
def scanAux (loads : List Nat → Except PyErr MValue) (data : List Nat) :
    Nat → Nat → Option MValue
  | _, 0 => none
  | i, n + 1 =>
    match loads (data.drop i) with
    | .ok v => some v
    | .error _ => scanAux loads data (i + 1) n

/-- Core of `unmarshal_object` (src/main.py lines 166-185), after the
string-to-bytes conversion: first try `marshal.loads(data)`; on any exception
scan offsets `i` in `range(min(20, len(data)))` and return the first success,
else `None`. -/
def unmarshalCore (loads : List Nat → Except PyErr MValue) (data : List Nat) :
    Except PyErr (Option MValue) :=
  pyTryCatch
    (do let v ← loads data; pure (some v))
    (fun _ =>
      pyTryCatch
        (.ok (scanAux loads data 0 (min 20 data.length)))
        (fun _ => .ok none))

/-- The offsets at which `unmarshal_object` invokes `marshal.loads`, in order:
the initial whole-buffer attempt (offset 0), then the scan offsets until the
first success. -/
def scanAttempts (loads : List Nat → Except PyErr MValue) (data : List Nat) :
    Nat → Nat → List Nat
  | _, 0 => []
  | i, n + 1 =>
    i :: (match loads (data.drop i) with
          | .ok _ => []
          | .error _ => scanAttempts loads data (i + 1) n)

def unmarshalAttempts (loads : List Nat → Except PyErr MValue) (data : List Nat) :
    List Nat :=
  0 :: (match loads data with
        | .ok _ => []
        | .error _ => scanAttempts loads data 0 (min 20 data.length))

/-- The candidate container-header sizes named by the specification. -/
def candidate_header_sizes : List Nat := [4, 8, 12, 16]

/-! ## Nested-node walker and render pipeline -/

/-- One rendered output block: nesting depth, the code object rendered,
whether the disassembly fallback was used, and the rendered text. -/
structure RBlock where
  depth : Nat
  code : PyCode
  isFallback : Bool
  text : String

/-- String constants appearing in the tool's output. -/
def nl : String := "\n"

def nl2 : String := "\n\n"

def fallback_banner : String := "# Python Disassembly (failed to decompile)\n"

def errLinePre : String := "# Error: "

def metaHeader : String := "# Code Object Metadata:\n"

def fileLinePre : String := "# - File name: "

def funcLinePre : String := "# - Function name: "

def argcLinePre : String := "# - Argument count: "

def localsLinePre : String := "# - Local variables: "

def constsLinePre : String := "# - Constants: "

def nestedHeader : String := "\n\n# ===== Nested Code Objects =====\n"

def importErrMsg : String := "uncompyle6 not available"

/-- Message text of a Python exception (`str(e)`). -/
def pyErrStr : PyErr → String
  | .valueError m => m
  | .syntaxError => "invalid syntax"
  | .unicodeEncodeError => "ordinal not in range(256)"
  | .importError m => m
  | .exn m => m

def backslashEsc : String := "\\\\"

def newlineEsc : String := "\\n"

/-- Model of Python `repr` on a `str`: quote choice and minimal escaping. -/
def pyReprStr (s : String) : String :=
  let hasSingle := s.data.contains '\''
  let hasDouble := s.data.contains '"'
  let q : Char := if hasSingle && !hasDouble then '"' else '\''
  let esc : Char → String := fun c =>
    if c = '\\' then backslashEsc
    else if c = q then String.singleton '\\' ++ String.singleton c
    else if c = '\n' then newlineEsc
    else String.singleton c
  String.singleton q ++ String.join (s.data.map esc) ++ String.singleton q

def emptyTupleStr : String := "()"

def lparenStr : String := "("

def rparenStr : String := ")"

def commaRparenStr : String := ",)"

def commaSpace : String := ", "

/-- Model of Python `repr` on a tuple of strings (`co_varnames`). -/
def pyReprStrTuple (xs : List String) : String :=
  match xs with
  | [] => emptyTupleStr
  | [x] => lparenStr ++ pyReprStr x ++ commaRparenStr
  | _ => lparenStr ++ String.intercalate commaSpace (xs.map pyReprStr) ++ rparenStr

/-- The environment of external collaborators of `decompile_code` and
`handle_lambda_and_nested_code`: whether `import uncompyle6` succeeds before
any installation, whether it succeeds after `pip install uncompyle6` has run,
the `uncompyle6.code_deparse` render capability, the `dis.dis` disassembler
(assumed total), and Python `repr` on a constant pool. -/
structure RenderEnv where
  availBefore : Bool
  availAfterInstall : Bool
  deparse : PyCode → Except PyErr String
  disasm : PyCode → String
  reprConsts : List MValue → String

/-- Resolution of the `import uncompyle6` block of `decompile_code`
(src/main.py lines 233-243): the pair is (capability available,
`os.system("pip install uncompyle6")` was executed). -/
def importResolved (env : RenderEnv) : Bool × Bool :=
  if env.availBefore then (true, false) else (env.availAfterInstall, true)

/-- The chunks written by the fallback branch of `decompile_code`
(src/main.py lines 263-283), one list element per `output.write` /
`dis.dis` call. -/
def fallbackLines (env : RenderEnv) (c : PyCode) (e : PyErr) : List String :=
  [fallback_banner,
   (errLinePre ++ pyErrStr e ++ nl2),
   metaHeader,
   (fileLinePre ++ c.filename ++ nl),
   (funcLinePre ++ c.name ++ nl),
   (argcLinePre ++ toString c.argcount ++ nl),
   (localsLinePre ++ pyReprStrTuple c.varnames ++ nl),
   (constsLinePre ++ env.reprConsts c.consts ++ nl2),
   (env.disasm c)]

def fallbackText (env : RenderEnv) (c : PyCode) (e : PyErr) : String :=
  String.join (fallbackLines env c e)

mutual

/-- Embedding of `handle_lambda_and_nested_code` (src/main.py lines 187-228),
at the granularity of rendered blocks: a code object yields exactly one block
(deparsed text, or on import failure / deparse failure the disassembly
fallback); lists and tuples recurse into their elements and dicts into their
values at depth+1; every other value (sets included) yields nothing.  The
walker does not descend into a code object's own `co_consts`.  The string
concatenation and container-label comment lines of the source are abstracted
into the block list, which preserves order, multiplicity, depth and per-block
text. -/
def handle_lambda_and_nested_code (avail : Bool) (dep : PyCode → Except PyErr String)
    (dis : PyCode → String) : MValue → Nat → List RBlock
  | .vcode a vn cs n f, depth =>
    let c : PyCode := { argcount := a, varnames := vn, consts := cs, name := n, filename := f }
    if avail then
      match dep c with
      | .ok t => [{ depth := depth, code := c, isFallback := false, text := t }]
      | .error _ => [{ depth := depth, code := c, isFallback := true, text := dis c }]
    else [{ depth := depth, code := c, isFallback := true, text := dis c }]
  | .vtuple xs, depth => handleNestedList avail dep dis xs (depth + 1)
  | .vlist xs, depth => handleNestedList avail dep dis xs (depth + 1)
  | .vdict ps, depth => handleNestedPairs avail dep dis ps (depth + 1)
  | _, _ => []

/-- The `for i, item in enumerate(obj)` loop of the walker on a list/tuple. -/
def handleNestedList (avail : Bool) (dep : PyCode → Except PyErr String)
    (dis : PyCode → String) : List MValue → Nat → List RBlock
  | [], _ => []
  | x :: xs, d =>
    handle_lambda_and_nested_code avail dep dis x d ++ handleNestedList avail dep dis xs d

/-- The `for key, value in obj.items()` loop of the walker on a dict:
only values are descended. -/
def handleNestedPairs (avail : Bool) (dep : PyCode → Except PyErr String)
    (dis : PyCode → String) : List (MValue × MValue) → Nat → List RBlock
  | [], _ => []
  | (_, v) :: ps, d =>
    handle_lambda_and_nested_code avail dep dis v d ++ handleNestedPairs avail dep dis ps d

end

/-- Embedding of `decompile_code` (src/main.py lines 230-283).  Returns the
produced text and whether the `pip install` side effect was executed. -/
def decompile_code (env : RenderEnv) (c : PyCode) : String × Bool :=
  let r := importResolved env
  if r.1 then
    match env.deparse c with
    | .ok src =>
      let nested := handleNestedList true env.deparse env.disasm c.consts 0
      (if nested.isEmpty then src
       else src ++ nestedHeader ++ String.join (nested.map RBlock.text), r.2)
    | .error e => (fallbackText env c e, r.2)
  else (fallbackText env c (PyErr.importError importErrMsg), r.2)

/-- The rendered blocks of a full `decompile_code` run: the root block first,
then (on deparse success) the nested walk over the root's constant pool. -/
def decompileBlocks (env : RenderEnv) (c : PyCode) : List RBlock :=
  let r := importResolved env
  if r.1 then
    match env.deparse c with
    | .ok src =>
      { depth := 0, code := c, isFallback := false, text := src }
        :: handleNestedList true env.deparse env.disasm c.consts 0
    | .error e =>
      [{ depth := 0, code := c, isFallback := true, text := fallbackText env c e }]
  else
    [{ depth := 0, code := c, isFallback := true,
       text := fallbackText env c (PyErr.importError importErrMsg) }]

mutual

/-- The code objects reachable from a value through tuple/list elements and
dict values only, in depth-first pre-order, without entering a code object's
own constant pool.  This is the claim-side characterisation the walker is
compared against. -/
def shallowCodes : MValue → List PyCode
  | .vcode a vn cs n f =>
    [{ argcount := a, varnames := vn, consts := cs, name := n, filename := f }]
  | .vtuple xs => shallowCodesList xs
  | .vlist xs => shallowCodesList xs
  | .vdict ps => shallowCodesPairs ps
  | _ => []

def shallowCodesList : List MValue → List PyCode
  | [] => []
  | x :: xs => shallowCodes x ++ shallowCodesList xs

def shallowCodesPairs : List (MValue × MValue) → List PyCode
  | [] => []
  | (_, v) :: ps => shallowCodes v ++ shallowCodesPairs ps

end


/-! ## String-to-bytes conversion (`convert_string_to_bytes`) -/

/-- ASCII whitespace as recognised by Python `str.split` / `str.strip`. -/
def isPyWs (c : Char) : Bool :=
  c = ' ' || c = '\t' || c = '\n' || c = '\r' || c = '\x0b' || c = '\x0c'

def stripWs (l : List Char) : List Char :=
  ((l.dropWhile isPyWs).reverse.dropWhile isPyWs).reverse

/-- Python `str.split()` with no separator: split on whitespace runs,
dropping empty fields.  The accumulator holds the current token reversed. -/
def splitWsAux : List Char → List Char → List (List Char)
  | [], acc => if acc.isEmpty then [] else [acc.reverse]
  | c :: rest, acc =>
    if isPyWs c then
      (if acc.isEmpty then splitWsAux rest [] else acc.reverse :: splitWsAux rest [])
    else splitWsAux rest (c :: acc)

def splitWs (l : List Char) : List (List Char) := splitWsAux l []

/-- Python `sub in s` for a fixed nonempty pattern `p :: ps`. -/
def containsSeq (p : Char) (ps : List Char) : List Char → Bool
  | [] => false
  | c :: rest => (p :: ps).isPrefixOf (c :: rest) || containsSeq p ps rest

/-- Python `s.replace('\\x', rep)`: left-to-right, non-overlapping
replacement of the two-character sequence backslash-`x`. -/
def replaceBackslashX (rep : List Char) : List Char → List Char
  | [] => []
  | [c] => [c]
  | c1 :: c2 :: rest =>
    if c1 = '\\' ∧ c2 = 'x' then rep ++ replaceBackslashX rep rest
    else c1 :: replaceBackslashX rep (c2 :: rest)

def hexDigitVal? (c : Char) : Option Nat :=
  if '0' ≤ c ∧ c ≤ '9' then some (c.toNat - 48)
  else if 'a' ≤ c ∧ c ≤ 'f' then some (c.toNat - 87)
  else if 'A' ≤ c ∧ c ≤ 'F' then some (c.toNat - 55)
  else none

def hexDigitsVal : List Char → Option Nat
  | [] => none
  | l => l.foldl (fun acc c => acc.bind fun a => (hexDigitVal? c).map fun d => 16 * a + d)
      (some 0)

/-- Python `int(tok, 16)`: optional surrounding whitespace, optional sign,
optional `0x`/`0X` prefix, then at least one hex digit. -/
def pyIntHex (tok : List Char) : Option Int :=
  let t := stripWs tok
  let signed : Bool × List Char :=
    match t with
    | c :: rest => if c = '-' then (true, rest) else if c = '+' then (false, rest) else (false, t)
    | [] => (false, t)
  let t2 : List Char :=
    match signed.2 with
    | c0 :: cx :: rest => if c0 = '0' ∧ (cx = 'x' ∨ cx = 'X') then rest else signed.2
    | _ => signed.2
  (hexDigitsVal t2).map fun n => if signed.1 then -(n : Int) else (n : Int)

/-- The first conversion attempt of `convert_string_to_bytes`
(src/main.py line 130): `bytes(int(x, 16) for x in s.replace('\\x', ' ').split())`;
`bytes` rejects values outside `0..255`. -/
def escapedHexBytes (s : List Char) : Option (List Nat) :=
  let toks := splitWs (replaceBackslashX [' '] s)
  toks.mapM fun t => (pyIntHex t).bind fun v =>
    if 0 ≤ v ∧ v < 256 then some v.toNat else none

/-- Python `s.encode('latin-1')`: succeeds iff every character is below 256. -/
def latin1Encode (s : List Char) : Option (List Nat) :=
  if s.all (fun c => c.toNat ≤ 255) then some (s.map Char.toNat) else none

def isOctDigit (c : Char) : Bool := '0' ≤ c && c ≤ '7'

def octVal (c : Char) : Nat := c.toNat - 48

/-- Recursion worker for `evalBytesLiteral`; the fuel argument bounds the
number of characters still to consume (each step consumes at least one
character and one unit of fuel). -/
def evalBytesLiteralGo : Nat → List Char → Option (List Nat)
  | _, [] => some []
  | 0, _ :: _ => none
  | fuel + 1, c :: rest =>
    if c = '\'' ∨ c = '\n' ∨ c = '\r' then none
    else if c = '\\' then
      match rest with
      | [] => none
      | e :: rest' =>
        if e = '\n' then evalBytesLiteralGo fuel rest'
        else if e = '\\' then (evalBytesLiteralGo fuel rest').map (92 :: ·)
        else if e = '\'' then (evalBytesLiteralGo fuel rest').map (39 :: ·)
        else if e = '"' then (evalBytesLiteralGo fuel rest').map (34 :: ·)
        else if e = 'n' then (evalBytesLiteralGo fuel rest').map (10 :: ·)
        else if e = 't' then (evalBytesLiteralGo fuel rest').map (9 :: ·)
        else if e = 'r' then (evalBytesLiteralGo fuel rest').map (13 :: ·)
        else if e = 'a' then (evalBytesLiteralGo fuel rest').map (7 :: ·)
        else if e = 'b' then (evalBytesLiteralGo fuel rest').map (8 :: ·)
        else if e = 'f' then (evalBytesLiteralGo fuel rest').map (12 :: ·)
        else if e = 'v' then (evalBytesLiteralGo fuel rest').map (11 :: ·)
        else if e = 'x' then
          match rest' with
          | h1 :: h2 :: rest'' =>
            match hexDigitVal? h1, hexDigitVal? h2 with
            | some a, some b => (evalBytesLiteralGo fuel rest'').map ((16 * a + b) :: ·)
            | _, _ => none
          | _ => none
        else if isOctDigit e then
          match rest' with
          | [] => some [octVal e]
          | o2 :: rest2 =>
            if isOctDigit o2 then
              match rest2 with
              | [] => some [octVal e * 8 + octVal o2]
              | o3 :: rest3 =>
                if isOctDigit o3 then
                  (evalBytesLiteralGo fuel rest3).map
                    (((octVal e * 64 + octVal o2 * 8 + octVal o3) % 256) :: ·)
                else (evalBytesLiteralGo fuel rest2).map ((octVal e * 8 + octVal o2) :: ·)
            else (evalBytesLiteralGo fuel rest').map (octVal e :: ·)
        else if 127 < e.toNat then none
        else (evalBytesLiteralGo fuel rest').map (fun bs => 92 :: e.toNat :: bs)
    else if 127 < c.toNat then none
    else (evalBytesLiteralGo fuel rest).map (c.toNat :: ·)

/-- Model of `eval(f"b'{s}'")` (src/main.py line 134): parse `s` as the body of
a single-quoted Python bytes literal.  Fails on an unescaped quote or line
break, a non-ASCII character, a trailing backslash, or a malformed `\x`
escape; recognises the standard escapes, `\x` hex escapes, octal escapes
(masked to a byte) and a backslash-newline continuation; an unrecognised
escape keeps the backslash. -/
def evalBytesLiteral (l : List Char) : Option (List Nat) :=
  evalBytesLiteralGo l.length l

/-- The guard of the hex fallback (src/main.py line 145):
every character of the stripped string is a hex digit, a backslash or `x`. -/
def allHexish (s : List Char) : Bool :=
  (stripWs s).all fun c => (hexDigitVal? c).isSome || c = '\\' || c = 'x'

/-- Python `bytes.fromhex`: ASCII whitespace may separate byte pairs; each
byte is two contiguous hex digits. -/
def fromhexBytes : List Char → Option (List Nat)
  | [] => some []
  | c :: rest =>
    if isPyWs c then fromhexBytes rest
    else
      match hexDigitVal? c with
      | none => none
      | some h1 =>
        match rest with
        | c2 :: rest' =>
          (hexDigitVal? c2).bind fun h2 => (fromhexBytes rest').map ((16 * h1 + h2) :: ·)
        | [] => none

def hexDigitChar (n : Nat) : Char :=
  if n < 10 then Char.ofNat (48 + n) else Char.ofNat (87 + n)

def hex4 (n : Nat) : List Char :=
  [hexDigitChar (n / 4096 % 16), hexDigitChar (n / 256 % 16),
   hexDigitChar (n / 16 % 16), hexDigitChar (n % 16)]

def hex8 (n : Nat) : List Char :=
  hex4 (n / 65536) ++ hex4 (n % 65536)

/-- Python `s.encode('raw_unicode_escape')`: characters below 256 map to their
byte; larger characters produce an ASCII `\uXXXX` / `\UXXXXXXXX` sequence.
Total: this encoding never fails. -/
def rawUnicodeEscape (s : List Char) : List Nat :=
  s.flatMap fun c =>
    if c.toNat ≤ 255 then [c.toNat]
    else if c.toNat ≤ 65535 then 92 :: 117 :: (hex4 c.toNat).map Char.toNat
    else 92 :: 85 :: (hex8 c.toNat).map Char.toNat

/-- The hex-digit-only fallback inside the outer exception handler of
`convert_string_to_bytes` (src/main.py lines 143-148): guard, then
`bytes.fromhex(s.replace('\\x', ''))`; `none` means fall through. -/
def hexOnlyConv (s : List Char) : Option (List Nat) :=
  if allHexish s then fromhexBytes (replaceBackslashX [] s) else none

/-- The `str` branch of `convert_string_to_bytes` (src/main.py lines 118-156),
with Python exceptions explicit: if the string contains `\x`, try the
escaped-hex token parse and on its failure `eval` as a bytes literal; else
`latin-1`; any exception reaches the outer handler, which tries the
hex-digit-only parse and finally `raw_unicode_escape`. -/
def convertStr (s : List Char) : Except PyErr (Option (List Nat)) :=
  pyTryCatch
    (if containsSeq '\\' ['x'] s then
      match escapedHexBytes s with
      | some bs => .ok (some bs)
      | none =>
        match evalBytesLiteral s with
        | some bs => .ok (some bs)
        | none => .error .syntaxError
     else
      match latin1Encode s with
      | some bs => .ok (some bs)
      | none => .error .unicodeEncodeError)
    (fun _ =>
      match hexOnlyConv s with
      | some bs => .ok (some bs)
      | none => .ok (some (rawUnicodeEscape s)))

/-- A value that is either a Python `str` or already `bytes`. -/
inductive StrOrBytes where
  | str (s : List Char)
  | bytes (bs : List Nat)

/-- Embedding of `convert_string_to_bytes` (src/main.py lines 118-156):
`bytes` input is returned unchanged; `str` input goes through `convertStr`. -/
def convert_string_to_bytes : StrOrBytes → Except PyErr (Option (List Nat))
  | .bytes bs => .ok (some bs)
  | .str s => convertStr s

/-- Embedding of `unmarshal_object` (src/main.py lines 158-185): convert a
`str` input to bytes, treat a `None`/empty result as failure, then run the
locator core. -/
def unmarshal_object (loads : List Nat → Except PyErr MValue) (input : StrOrBytes) :
    Except PyErr (Option MValue) := do
  let data? ←
    match input with
    | .str s => convert_string_to_bytes (.str s)
    | .bytes bs => Except.ok (some bs)
  match data? with
  | none => pure none
  | some data => if data.isEmpty then pure none else unmarshalCore loads data

/-- The conversion order the specification claims: escaped-hex, then plain
latin-1, then hex-digit-only, each failure falling to the next. -/
def claimOrderChain (s : List Char) : Option (List Nat) :=
  escapedHexBytes s <|> latin1Encode s <|> hexOnlyConv s

/-- The conversion order the code actually implements, as a priority chain:
with `\x` present, escaped-hex then bytes-literal evaluation; without it,
latin-1; in both cases falling to hex-digit-only and then to the total
`raw_unicode_escape` encoding. -/
def amendedChain (s : List Char) : List Nat :=
  let primary :=
    if containsSeq '\\' ['x'] s then escapedHexBytes s <|> evalBytesLiteral s
    else latin1Encode s
  (primary <|> hexOnlyConv s).getD (rawUnicodeEscape s)

/-! ## Text pattern extractor (`extract_marshal_data_from_text`) -/

def p1LitStr : String := "marshal.loads(b"

def p2LitStr : String := "marshal.loads(b\"\"\""

def p3LitStr : String := "marshal.loads(bytes("

def p4LitStr : String := "exec(marshal.loads(b"

def p5LitStr : String := "exec(marshal.loads(b\"\"\""

/-- Match a literal character sequence at the start, returning the rest. -/
def matchLit : List Char → List Char → Option (List Char)
  | [], l => some l
  | _, [] => none
  | p :: ps, c :: cs => if p = c then matchLit ps cs else none

/-- Longest prefix of characters not in `bad`, with the remainder. -/
def spanNot (bad : List Char) : List Char → List Char × List Char
  | [] => ([], [])
  | c :: cs =>
    if bad.contains c then ([], c :: cs)
    else
      let r := spanNot bad cs
      (c :: r.1, r.2)

def quoteChars : List Char := ['\'', '"']

/-- After the opening quote: `([^'\"]+)['\"]` — a nonempty run of non-quote
characters captured, followed by a quote. -/
def captureQuoteRun (r2 : List Char) : Option (List Char) :=
  let sp := spanNot quoteChars r2
  if sp.1.isEmpty then none
  else
    match sp.2 with
    | q2 :: _ => if quoteChars.contains q2 then some sp.1 else none
    | [] => none

/-- The body `([^\"\"\"]+)\"\"\"` — a nonempty run of non-`"` characters
captured, followed by three `"`. -/
def captureTripleRun (r2 : List Char) : Option (List Char) :=
  let sp := spanNot ['"'] r2
  if sp.1.isEmpty then none
  else
    match sp.2 with
    | a :: b :: c :: _ => if a = '"' ∧ b = '"' ∧ c = '"' then some sp.1 else none
    | _ => none

/-- The body `([^)]+)\)\)` — a nonempty run of non-`)` characters captured,
followed by two `)`. -/
def captureParenRun (r2 : List Char) : Option (List Char) :=
  let sp := spanNot [')'] r2
  if sp.1.isEmpty then none
  else
    match sp.2 with
    | a :: b :: _ => if a = ')' ∧ b = ')' then some sp.1 else none
    | _ => none

/-- Anchored matcher for `marshal\.loads\(b['\"]([^'\"]+)['\"]`. -/
def tryP1 (l : List Char) : Option (List Char) :=
  (matchLit p1LitStr.data l).bind fun r1 =>
    match r1 with
    | q :: r2 => if quoteChars.contains q then captureQuoteRun r2 else none
    | [] => none

/-- Anchored matcher for `marshal\.loads\(b\"\"\"([^\"\"\"]+)\"\"\"`. -/
def tryP2 (l : List Char) : Option (List Char) :=
  (matchLit p2LitStr.data l).bind captureTripleRun

/-- Anchored matcher for `marshal\.loads\(bytes\(([^)]+)\)\)`. -/
def tryP3 (l : List Char) : Option (List Char) :=
  (matchLit p3LitStr.data l).bind captureParenRun

/-- Anchored matcher for `exec\(marshal\.loads\(b['\"]([^'\"]+)['\"]`. -/
def tryP4 (l : List Char) : Option (List Char) :=
  (matchLit p4LitStr.data l).bind fun r1 =>
    match r1 with
    | q :: r2 => if quoteChars.contains q then captureQuoteRun r2 else none
    | [] => none

/-- Anchored matcher for `exec\(marshal\.loads\(b\"\"\"([^\"\"\"]+)\"\"\"`. -/
def tryP5 (l : List Char) : Option (List Char) :=
  (matchLit p5LitStr.data l).bind captureTripleRun

/-- Leftmost match: try the anchored matcher at offset 0, 1, 2, ... —
the first (capture of the first) match, as `re.findall(...)[0]`. -/
def scanFirst (f : List Char → Option (List Char)) : List Char → Option (List Char)
  | [] => f []
  | c :: cs =>
    match f (c :: cs) with
    | some r => some r
    | none => scanFirst f cs

/-- The ordered pattern list of `extract_marshal_data_from_text`
(src/main.py lines 99-105). -/
def textPatterns : List (List Char → Option (List Char)) :=
  [tryP1, tryP2, tryP3, tryP4, tryP5]

/-- The `for pattern in patterns` loop: first pattern with any match wins. -/
def extractLoop (t : List Char) : List (List Char → Option (List Char)) → Option (List Char)
  | [] => none
  | p :: ps =>
    match scanFirst p t with
    | some m => some m
    | none => extractLoop t ps

/-- Embedding of `extract_marshal_data_from_text` (src/main.py lines 96-116):
first occurrence matched by the first pattern yielding any match, else the
raw text itself. -/
def extract_marshal_data_from_text (t : List Char) : List Char :=
  match extractLoop t textPatterns with
  | some m => m
  | none => t

/-! ## Top-level driver (`decrypt_marshal_from_string`) -/

/-- Python truthiness of a decoded value (`if not unmarshalled`). -/
def pyFalsy : MValue → Bool
  | .vnone => true
  | .vbool b => !b
  | .vint n => n = 0
  | .vstr s => s.isEmpty
  | .vbytes bs => bs.isEmpty
  | .vtuple xs => xs.isEmpty
  | .vlist xs => xs.isEmpty
  | .vdict ps => ps.isEmpty
  | .vset xs => xs.isEmpty
  | .vcode _ _ _ _ _ => false

/-- Python `isinstance(v, types.CodeType)`. -/
def isCodeV : MValue → Bool
  | .vcode _ _ _ _ _ => true
  | _ => false

def pyTypeName : MValue → String
  | .vnone => "<class 'NoneType'>"
  | .vbool _ => "<class 'bool'>"
  | .vint _ => "<class 'int'>"
  | .vstr _ => "<class 'str'>"
  | .vbytes _ => "<class 'bytes'>"
  | .vtuple _ => "<class 'tuple'>"
  | .vlist _ => "<class 'list'>"
  | .vdict _ => "<class 'dict'>"
  | .vset _ => "<class 'set'>"
  | .vcode _ _ _ _ _ => "<class 'code'>"

def notCodeHdr : String := "# Marshal Decoded Object (not a code object)\n# Type: "

/-- The content saved when the decoded top-level value is not a code object
(src/main.py lines 362-366): header, type, blank line, `repr` of the value. -/
def notCodeText (reprV : MValue → String) (v : MValue) : String :=
  notCodeHdr ++ pyTypeName v ++ nl2 ++ reprV v

/-- Embedding of `decrypt_marshal_from_string` (src/main.py lines 344-384).
`reprV` models the Python builtin `repr`; `saveOk` the outcome of
`save_content`.  Returns the function's boolean result and the content handed
to `save_content` (`none` when nothing is saved). -/
def decrypt_marshal_from_string (env : RenderEnv) (loads : List Nat → Except PyErr MValue)
    (reprV : MValue → String) (saveOk : Bool) (input : StrOrBytes) :
    Except PyErr (Bool × Option String) := do
  let um ← unmarshal_object loads input
  match um with
  | none => pure (false, none)
  | some v =>
    if pyFalsy v then pure (false, none)
    else
      match v with
      | .vcode a vn cs n f =>
        let dc := decompile_code env
          { argcount := a, varnames := vn, consts := cs, name := n, filename := f }
        pure (saveOk, some dc.1)
      | _ => pure (true, some (notCodeText reprV v))

/-! ## Claim-side definitions and concrete instances -/

mutual

/-- The code objects reachable as the specification's claim describes:
through containers (tuples, lists, dicts, sets) and additionally through
each code object's own constant pool, at unbounded depth, in depth-first
pre-order. -/
def deepCodes : MValue → List PyCode
  | .vcode a vn cs n f =>
    { argcount := a, varnames := vn, consts := cs, name := n, filename := f }
      :: deepCodesList cs
  | .vtuple xs => deepCodesList xs
  | .vlist xs => deepCodesList xs
  | .vdict ps => deepCodesPairs ps
  | .vset xs => deepCodesList xs
  | _ => []

def deepCodesList : List MValue → List PyCode
  | [] => []
  | x :: xs => deepCodes x ++ deepCodesList xs

def deepCodesPairs : List (MValue × MValue) → List PyCode
  | [] => []
  | (_, v) :: ps => deepCodes v ++ deepCodesPairs ps

end

def badDataMsg : String := "bad marshal data"

/-- A decoder that succeeds exactly on 5-byte suffixes. -/
def loadsLen5 : List Nat → Except PyErr MValue := fun l =>
  if l.length = 5 then Except.ok (MValue.vint 1) else Except.error (PyErr.valueError badDataMsg)

/-- A decoder that succeeds exactly on 2-byte suffixes. -/
def loadsLen2 : List Nat → Except PyErr MValue := fun l =>
  if l.length = 2 then Except.ok (MValue.vint 1) else Except.error (PyErr.valueError badDataMsg)

/-- A decoder that always fails. -/
def loadsFail : List Nat → Except PyErr MValue := fun _ =>
  Except.error (PyErr.valueError badDataMsg)

/-- Twenty noise bytes followed by a five-byte payload that decodes. -/
def cxData20 : List Nat := List.replicate 20 9 ++ [1, 2, 3, 4, 5]

/-- A 4-byte container header followed by a five-byte payload that decodes. -/
def cxDataH4 : List Nat := List.replicate 4 7 ++ [1, 2, 3, 4, 5]

/-- Three noise bytes followed by a two-byte payload that decodes. -/
def wDataA : List Nat := [9, 9, 9, 1, 2]

/-- An 8-byte container header, for the header-size witness. -/
def wNoise8 : List Nat := List.replicate 8 7

def wPayload2 : List Nat := [1, 2]

def nameA : String := "A"

def nameB : String := "B"

def nameC : String := "C"

def fileM : String := "m.py"

def srcStub : String := "pass"

def disStub : String := "dis"

def reprStub : String := "()"

/-- A code value whose constant pool is empty. -/
def codeC : MValue := MValue.vcode 0 [] [] nameC fileM

/-- A code value whose constant pool holds `codeC`. -/
def codeB : MValue := MValue.vcode 0 [] [codeC] nameB fileM

/-- A root code object whose constant pool holds `codeB`. -/
def rootA : PyCode :=
  { argcount := 0, varnames := [], consts := [codeB], name := nameA, filename := fileM }

/-- An environment where the render capability is importable and succeeds. -/
def wEnv : RenderEnv :=
  { availBefore := true, availAfterInstall := true,
    deparse := fun _ => Except.ok srcStub,
    disasm := fun _ => disStub,
    reprConsts := fun _ => reprStub }

/-- An environment where `uncompyle6` is unavailable even after installing. -/
def wEnvUnavail : RenderEnv :=
  { availBefore := false, availAfterInstall := false,
    deparse := fun _ => Except.ok srcStub,
    disasm := fun _ => disStub,
    reprConsts := fun _ => reprStub }

def wRepr : MValue → String := fun _ => reprStub

/-- A decoder returning the falsy value `0`. -/
def loadsZero : List Nat → Except PyErr MValue := fun _ => Except.ok (MValue.vint 0)

/-- A decoder returning the truthy non-code value `7`. -/
def loadsSeven : List Nat → Except PyErr MValue := fun _ => Except.ok (MValue.vint 7)

/-- The string `\x41 Z` (backslash, x, 4, 1, space, Z): its escaped-hex parse
fails on the token `Z`, latin-1 would succeed, but the code instead
`eval`s it as the bytes literal `b'\x41 Z'`. -/
def s0C5 : List Char := ['\\', 'x', '4', '1', ' ', 'Z']

def tW6 : List Char := "marshal.loads(b'AB')".data

def tW6none : List Char := ['z']

/-! ## Lemmas and claim theorems -/

lemma excToOption_eq_none {α : Type} {x : Except PyErr α} (h : excToOption x = none) :
    ∃ e, x = .error e := by
  cases x with
  | ok a => simp [excToOption] at h
  | error e => exact ⟨e, rfl⟩

lemma scanAux_ok (loads : List Nat → Except PyErr MValue) (data : List Nat) (v : MValue) :
    ∀ (n i k : Nat), i ≤ k → k < i + n →
    (∀ j, i ≤ j → j < k → excToOption (loads (data.drop j)) = none) →
    loads (data.drop k) = .ok v →
    scanAux loads data i n = some v := by
  intro n
  induction n with
  | zero => intro i k hik hk _ _; omega
  | succ n ih =>
    intro i k hik hk hfail hok
    by_cases hik' : i = k
    · subst hik'
      simp [scanAux, hok]
    · have hi : i < k := by omega
      obtain ⟨e, he⟩ := excToOption_eq_none (hfail i le_rfl hi)
      simp only [scanAux, he]
      exact ih (i + 1) k (by omega) (by omega)
        (fun j hj hj' => hfail j (by omega) hj') hok

lemma scanAux_none (loads : List Nat → Except PyErr MValue) (data : List Nat) :
    ∀ (n i : Nat),
    (∀ j, i ≤ j → j < i + n → excToOption (loads (data.drop j)) = none) →
    scanAux loads data i n = none := by
  intro n
  induction n with
  | zero => intro i _; simp [scanAux]
  | succ n ih =>
    intro i hfail
    obtain ⟨e, he⟩ := excToOption_eq_none (hfail i le_rfl (by omega))
    simp only [scanAux, he]
    exact ih (i + 1) (fun j hj hj' => hfail j (by omega) (by omega))

/-- If the first `k` offsets fail and offset `k` decodes, with `k < 20` and
`k` inside the buffer, the locator core returns the offset-`k` value. -/
lemma unmarshalCore_success_at (loads : List Nat → Except PyErr MValue)
    (data : List Nat) (k : Nat) (v : MValue)
    (hk20 : k < 20) (hklen : k < data.length)
    (hfail : ∀ i, i < k → excToOption (loads (data.drop i)) = none)
    (hok : loads (data.drop k) = .ok v) :
    unmarshalCore loads data = .ok (some v) := by
  by_cases hk0 : k = 0
  · subst hk0
    have : loads data = .ok v := by simpa using hok
    simp [unmarshalCore, pyTryCatch, this]
  · have h0 : excToOption (loads (data.drop 0)) = none := hfail 0 (by omega)
    obtain ⟨e, he⟩ := excToOption_eq_none (by simpa using h0)
    have hscan : scanAux loads data 0 (min 20 data.length) = some v :=
      scanAux_ok loads data v (min 20 data.length) 0 k (by omega) (by omega)
        (fun j _ hj => hfail j hj) hok
    simp [unmarshalCore, pyTryCatch, he, hscan]

/-- If every offset below `min 20 (length)` fails (offset 0 included), the
locator core is exhausted and returns `none`. -/
lemma unmarshalCore_exhausted (loads : List Nat → Except PyErr MValue)
    (data : List Nat)
    (hfail : ∀ i, i < min 20 data.length → excToOption (loads (data.drop i)) = none)
    (h0 : excToOption (loads data) = none) :
    unmarshalCore loads data = .ok none := by
  obtain ⟨e, he⟩ := excToOption_eq_none h0
  have hscan : scanAux loads data 0 (min 20 data.length) = none :=
    scanAux_none loads data (min 20 data.length) 0 (fun j _ hj => hfail j (by omega))
  simp [unmarshalCore, pyTryCatch, he, hscan]

mutual

theorem handleNested_codes (avail : Bool) (dep : PyCode → Except PyErr String)
    (dis : PyCode → String) :
    ∀ (v : MValue) (d : Nat),
      (handle_lambda_and_nested_code avail dep dis v d).map RBlock.code = shallowCodes v
  | .vcode a vn cs n f, d => by
    simp only [handle_lambda_and_nested_code, shallowCodes]
    split
    · split <;> simp
    · simp
  | .vtuple xs, d => by
    simp only [handle_lambda_and_nested_code, shallowCodes]
    exact handleNestedList_codes avail dep dis xs (d + 1)
  | .vlist xs, d => by
    simp only [handle_lambda_and_nested_code, shallowCodes]
    exact handleNestedList_codes avail dep dis xs (d + 1)
  | .vdict ps, d => by
    simp only [handle_lambda_and_nested_code, shallowCodes]
    exact handleNestedPairs_codes avail dep dis ps (d + 1)
  | .vnone, d => by simp [handle_lambda_and_nested_code, shallowCodes]
  | .vbool b, d => by simp [handle_lambda_and_nested_code, shallowCodes]
  | .vint n, d => by simp [handle_lambda_and_nested_code, shallowCodes]
  | .vstr s, d => by simp [handle_lambda_and_nested_code, shallowCodes]
  | .vbytes bs, d => by simp [handle_lambda_and_nested_code, shallowCodes]
  | .vset xs, d => by simp [handle_lambda_and_nested_code, shallowCodes]

theorem handleNestedList_codes (avail : Bool) (dep : PyCode → Except PyErr String)
    (dis : PyCode → String) :
    ∀ (xs : List MValue) (d : Nat),
      (handleNestedList avail dep dis xs d).map RBlock.code = shallowCodesList xs
  | [], _ => by simp [handleNestedList, shallowCodesList]
  | x :: xs, d => by
    simp only [handleNestedList, shallowCodesList, List.map_append]
    rw [handleNested_codes avail dep dis x d, handleNestedList_codes avail dep dis xs d]

theorem handleNestedPairs_codes (avail : Bool) (dep : PyCode → Except PyErr String)
    (dis : PyCode → String) :
    ∀ (ps : List (MValue × MValue)) (d : Nat),
      (handleNestedPairs avail dep dis ps d).map RBlock.code = shallowCodesPairs ps
  | [], _ => by simp [handleNestedPairs, shallowCodesPairs]
  | (k, v) :: ps, d => by
    simp only [handleNestedPairs, shallowCodesPairs, List.map_append]
    rw [handleNested_codes avail dep dis v d, handleNestedPairs_codes avail dep dis ps d]

end

/-- C1 counterexample: a buffer of 20 noise bytes followed by a valid payload.
The claim says the brute-force strategy scans offsets up to `min(100, length)`
and hence succeeds for any noise length below 100; the code's bound is
`min(20, length)`, so at noise length 20 the locator is exhausted and returns
no object even though offset 20 decodes. -/
theorem c1_counterexample :
    unmarshalCore loadsLen5 cxData20 = .ok none ∧
    loadsLen5 (cxData20.drop 20) = .ok (MValue.vint 1) ∧
    20 < 100 := by
  refine ⟨rfl, rfl, by norm_num⟩

/-- C1 (amended): the brute-force offset strategy attempts decoding at every
offset `i` from 0 up to (exclusive) `min(20, length)` — the bound is 20, not
100 — and returns the result of the smallest offset that decodes; for a
buffer of `k` noise bytes followed by a valid payload it succeeds exactly
when `k < 20`, and returns no object (locator exhaustion) when `k ≥ 20`. -/
theorem c1_theorem :
    (∀ (loads : List Nat → Except PyErr MValue) (data : List Nat) (k : Nat) (v : MValue),
      k < 20 → k < data.length →
      (∀ i, i < k → excToOption (loads (data.drop i)) = none) →
      loads (data.drop k) = .ok v →
      unmarshalCore loads data = .ok (some v)) ∧
    (∀ (loads : List Nat → Except PyErr MValue) (data : List Nat) (k : Nat),
      20 ≤ k →
      (∀ i, i < k → excToOption (loads (data.drop i)) = none) →
      unmarshalCore loads data = .ok none) := by
  constructor
  · intro loads data k v hk20 hklen hfail hok
    exact unmarshalCore_success_at loads data k v hk20 hklen hfail hok
  · intro loads data k hk hfail
    refine unmarshalCore_exhausted loads data (fun i hi => hfail i (by omega)) ?_
    have := hfail 0 (by omega)
    simpa using this

/-- C1 witness: the success half at noise length 3, the exhaustion half at a
decoder that fails everywhere. -/
theorem c1_witness :
    unmarshalCore loadsLen2 wDataA = .ok (some (MValue.vint 1)) ∧
    unmarshalCore loadsFail cxData20 = .ok none := by
  constructor
  · exact c1_theorem.1 loadsLen2 wDataA 3 (MValue.vint 1) (by norm_num) (by norm_num [wDataA])
      (fun i hi => by interval_cases i <;> rfl) rfl
  · exact c1_theorem.2 loadsFail cxData20 20 (by norm_num) (fun i hi => rfl)

/-- C3 counterexample: for a buffer built as a 4-byte header followed by a
valid payload, the claim says the locator tries the candidate header sizes
`{4, 8, 12, 16}` in ascending order and returns header size 4; the code has
no header-size strategy — it attempts the whole buffer and then offsets
0, 1, 2, 3, 4, including offset 1, which is not a candidate header size. -/
theorem c3_counterexample :
    unmarshalAttempts loadsLen5 cxDataH4 = [0, 0, 1, 2, 3, 4] ∧
    1 ∈ unmarshalAttempts loadsLen5 cxDataH4 ∧
    1 ∉ candidate_header_sizes := by
  refine ⟨rfl, ?_, by decide⟩
  rw [show unmarshalAttempts loadsLen5 cxDataH4 = [0, 0, 1, 2, 3, 4] from rfl]
  decide

/-- C3 (amended): there is no dedicated container-header strategy; the
brute-force offset scan subsumes it because every candidate header size in
`{4, 8, 12, 16}` is below the scan bound 20.  For a buffer built as a header
of size `H ∈ {4, 8, 12, 16}` whose proper suffixes above the payload do not
decode, followed by a nonempty payload, the locator returns exactly the value
obtained by decoding the payload directly. -/
theorem c3_theorem :
    ∀ (loads : List Nat → Except PyErr MValue) (noise payload : List Nat) (v : MValue),
      noise.length ∈ candidate_header_sizes →
      payload ≠ [] →
      (∀ i, i < noise.length → excToOption (loads ((noise ++ payload).drop i)) = none) →
      loads payload = .ok v →
      unmarshalCore loads (noise ++ payload) = .ok (some v) := by
  intro loads noise payload v hmem hne hfail hok
  have hlt : noise.length < 20 := by
    have h4 : noise.length = 4 ∨ noise.length = 8 ∨ noise.length = 12 ∨ noise.length = 16 := by
      simpa [candidate_header_sizes] using hmem
    omega
  have hpos : 0 < payload.length := List.length_pos.mpr hne
  have hdrop : (noise ++ payload).drop noise.length = payload := List.drop_left noise payload
  refine unmarshalCore_success_at loads (noise ++ payload) noise.length v hlt ?_ hfail ?_
  · simp only [List.length_append]; omega
  · rw [hdrop]; exact hok

/-- C3 witness: header size 8 with a two-byte payload. -/
theorem c3_witness :
    unmarshalCore loadsLen2 (wNoise8 ++ wPayload2) = .ok (some (MValue.vint 1)) := by
  exact c3_theorem loadsLen2 wNoise8 wPayload2 (MValue.vint 1) (by decide) (by decide)
    (fun i hi => by simp only [wNoise8, List.length_replicate] at hi; interval_cases i <;> rfl)
    rfl

/-- C2 counterexample: the root code object `rootA` holds `codeB` in its
constant pool, and `codeB` holds `codeC` in its own constant pool.  `codeC`
is reachable in the claim's sense, but the walker renders only the root and
`codeB`: a code node nested inside the constant pool of another nested code
node produces no rendered block. -/
theorem c2_counterexample :
    (decompileBlocks wEnv rootA).map (fun b => b.code.name) = [nameA, nameB] ∧
    nameC ∈ (deepCodes (MValue.vcode 0 [] [codeB] nameA fileM)).map PyCode.name ∧
    nameC ∉ (decompileBlocks wEnv rootA).map (fun b => b.code.name) := by
  refine ⟨rfl, ?_, ?_⟩
  · rw [show (deepCodes (MValue.vcode 0 [] [codeB] nameA fileM)).map PyCode.name
        = [nameA, nameB, nameC] from rfl]
    decide
  · rw [show (decompileBlocks wEnv rootA).map (fun b => b.code.name) = [nameA, nameB] from rfl]
    decide

/-- C2 (amended): the nested-node walker renders, exactly once each and in
depth-first pre-order, precisely the code nodes reachable through container
elements (tuple and list elements and dict values) without ever descending
into a code node's own constant pool; on deparse success `decompile_code`
renders the root block followed by that walk over the root's constant pool.
Code nodes nested inside a nested code node's constant pool, inside sets, or
inside dict keys are not rendered. -/
theorem c2_theorem :
    (∀ (avail : Bool) (dep : PyCode → Except PyErr String) (dis : PyCode → String)
       (v : MValue) (d : Nat),
      (handle_lambda_and_nested_code avail dep dis v d).map RBlock.code = shallowCodes v) ∧
    (∀ (env : RenderEnv) (c : PyCode) (src : String),
      (importResolved env).1 = true → env.deparse c = .ok src →
      (decompileBlocks env c).map RBlock.code = c :: shallowCodesList c.consts) := by
  constructor
  · exact handleNested_codes
  · intro env c src hav hok
    simp only [decompileBlocks, hav, if_true, hok, List.map_cons]
    rw [handleNestedList_codes]

/-- C2 witness: the walk over a tuple holding `codeB`, and a full
`decompile_code` run on `rootA` in an available environment. -/
theorem c2_witness :
    ((handle_lambda_and_nested_code true wEnv.deparse wEnv.disasm
        (MValue.vtuple [codeB]) 0).map RBlock.code = shallowCodes (MValue.vtuple [codeB])) ∧
    (decompileBlocks wEnv rootA).map RBlock.code = rootA :: shallowCodesList rootA.consts := by
  exact ⟨c2_theorem.1 true wEnv.deparse wEnv.disasm (MValue.vtuple [codeB]) 0,
    c2_theorem.2 wEnv rootA srcStub rfl rfl⟩

/-- C9 counterexample: when the render capability is initially unavailable,
`decompile_code` executes the side-effecting `pip install uncompyle6` step,
contradicting the claim that the core never performs an installation. -/
theorem c9_counterexample :
    (decompile_code wEnvUnavail rootA).2 = true ∧
    wEnvUnavail.availBefore = false := ⟨rfl, rfl⟩

/-- C9 (amended): `decompile_code` performs the side-effecting installation
step exactly when the capability is initially unavailable (never when the
initial import succeeds); availability is re-checked after the install, and
if the capability is still unavailable the disassembly fallback is produced
rather than an error. -/
theorem c9_theorem :
    ∀ (env : RenderEnv) (c : PyCode),
      (decompile_code env c).2 = !env.availBefore ∧
      (env.availBefore = false → env.availAfterInstall = false →
        (decompile_code env c).1 = fallbackText env c (PyErr.importError importErrMsg)) := by
  intro env c
  constructor
  · by_cases h : env.availBefore
    · simp only [decompile_code, importResolved, h, if_true]
      cases env.deparse c <;> simp
    · have h' : env.availBefore = false := by simpa using h
      simp only [decompile_code, importResolved, h', Bool.false_eq_true, if_false]
      by_cases h2 : env.availAfterInstall
      · simp only [h2, if_true]
        cases env.deparse c <;> simp [h']
      · have h2' : env.availAfterInstall = false := by simpa using h2
        simp [h2', h']
  · intro h1 h2
    simp [decompile_code, importResolved, h1, h2]

/-- C9 witness: in `wEnvUnavail` the install flag is the negation of initial
availability and the text is the import-failure fallback. -/
theorem c9_witness :
    (decompile_code wEnvUnavail rootA).2 = !wEnvUnavail.availBefore ∧
    (decompile_code wEnvUnavail rootA).1 =
      fallbackText wEnvUnavail rootA (PyErr.importError importErrMsg) := by
  exact ⟨(c9_theorem wEnvUnavail rootA).1, (c9_theorem wEnvUnavail rootA).2 rfl rfl⟩

lemma fallbackLines_facts (env : RenderEnv) (c : PyCode) (e : PyErr) :
    (fallbackLines env c e).head? = some fallback_banner ∧
    (funcLinePre ++ c.name ++ nl) ∈ fallbackLines env c e ∧
    (argcLinePre ++ toString c.argcount ++ nl) ∈ fallbackLines env c e ∧
    (localsLinePre ++ pyReprStrTuple c.varnames ++ nl) ∈ fallbackLines env c e := by
  refine ⟨rfl, ?_, ?_, ?_⟩ <;> simp [fallbackLines]

/-- C4: whenever the render-source capability is unavailable (the import
fails even after the install attempt) or fails on the node, `decompile_code`
still produces a result — the failure is masked, not surfaced: the single
rendered block carries `isFallback = true`, and the fallback text opens with
the fallback banner and contains the node's qualified name (`co_name`),
argument count and local variable names. -/
theorem c4_theorem :
    ∀ (env : RenderEnv) (c : PyCode),
      ((importResolved env).1 = false ∨ ∃ e', env.deparse c = .error e') →
      ∃ e, (decompile_code env c).1 = fallbackText env c e ∧
        (decompileBlocks env c).map RBlock.isFallback = [true] ∧
        (fallbackLines env c e).head? = some fallback_banner ∧
        (funcLinePre ++ c.name ++ nl) ∈ fallbackLines env c e ∧
        (argcLinePre ++ toString c.argcount ++ nl) ∈ fallbackLines env c e ∧
        (localsLinePre ++ pyReprStrTuple c.varnames ++ nl) ∈ fallbackLines env c e := by
  intro env c h
  by_cases hav : (importResolved env).1 = true
  · rcases h with h | ⟨e', he'⟩
    · rw [hav] at h; exact absurd h (by simp)
    · refine ⟨e', ?_, ?_, fallbackLines_facts env c e'⟩
      · simp [decompile_code, hav, he']
      · simp [decompileBlocks, hav, he']
  · have hav' : (importResolved env).1 = false := by simpa using hav
    refine ⟨PyErr.importError importErrMsg, ?_, ?_, fallbackLines_facts env c _⟩
    · simp [decompile_code, hav']
    · simp [decompileBlocks, hav']

/-- C4 witness: the unavailable environment on `rootA`. -/
theorem c4_witness :
    ∃ e, (decompile_code wEnvUnavail rootA).1 = fallbackText wEnvUnavail rootA e ∧
      (decompileBlocks wEnvUnavail rootA).map RBlock.isFallback = [true] ∧
      (fallbackLines wEnvUnavail rootA e).head? = some fallback_banner ∧
      (funcLinePre ++ rootA.name ++ nl) ∈ fallbackLines wEnvUnavail rootA e ∧
      (argcLinePre ++ toString rootA.argcount ++ nl) ∈ fallbackLines wEnvUnavail rootA e ∧
      (localsLinePre ++ pyReprStrTuple rootA.varnames ++ nl) ∈ fallbackLines wEnvUnavail rootA e :=
  c4_theorem wEnvUnavail rootA (Or.inl rfl)

/-- C5 counterexample: on the string `\x41 Z` the escaped-hex parse fails
(token `Z`), and the claimed priority order would next attempt latin-1,
which succeeds with the six raw character bytes; the code instead `eval`s
the string as a bytes literal and returns three bytes.  The claimed
escaped-hex → latin-1 fall-through does not exist. -/
theorem c5_counterexample :
    convertStr s0C5 = .ok (some [65, 32, 90]) ∧
    escapedHexBytes s0C5 = none ∧
    latin1Encode s0C5 = some [92, 120, 52, 49, 32, 90] ∧
    claimOrderChain s0C5 = some [92, 120, 52, 49, 32, 90] ∧
    ([65, 32, 90] : List Nat) ≠ [92, 120, 52, 49, 32, 90] := by
  refine ⟨rfl, rfl, rfl, rfl, by decide⟩

/-- C5 (amended): the conversion dispatches on whether the string contains
the two-character sequence `\x`.  If it does: escaped-hex token parsing,
falling through to bytes-literal evaluation, then to hex-digit-only parsing,
then to the total raw-unicode-escape encoding.  If it does not: latin-1,
falling through to hex-digit-only, then raw encoding.  Latin-1 is never
attempted after an escaped-hex failure. -/
theorem c5_theorem :
    ∀ (s : List Char), convertStr s = .ok (some (amendedChain s)) := by
  intro s
  unfold convertStr amendedChain
  by_cases hc : containsSeq '\\' ['x'] s = true
  · simp only [hc, if_true]
    cases h1 : escapedHexBytes s with
    | some bs => simp [pyTryCatch, h1, Option.orElse]
    | none =>
      cases h2 : evalBytesLiteral s with
      | some bs => simp [pyTryCatch, h1, h2, Option.orElse]
      | none =>
        cases h3 : hexOnlyConv s with
        | some bs => simp [pyTryCatch, h1, h2, h3, Option.orElse]
        | none => simp [pyTryCatch, h1, h2, h3, Option.orElse]
  · have hc' : containsSeq '\\' ['x'] s = false := by simpa using hc
    simp only [hc', Bool.false_eq_true, if_false]
    cases h1 : latin1Encode s with
    | some bs => simp [pyTryCatch, h1, Option.orElse]
    | none =>
      cases h3 : hexOnlyConv s with
      | some bs => simp [pyTryCatch, h1, h3, Option.orElse]
      | none => simp [pyTryCatch, h1, h3, Option.orElse]

lemma extractLoop_eq_none (t : List Char) :
    ∀ (ps : List (List Char → Option (List Char))),
      (∀ p ∈ ps, scanFirst p t = none) → extractLoop t ps = none := by
  intro ps
  induction ps with
  | nil => intro _; rfl
  | cons p ps ih =>
    intro h
    have hp : scanFirst p t = none := h p (List.mem_cons_self p ps)
    simp only [extractLoop, hp]
    exact ih fun q hq => h q (List.mem_cons_of_mem p hq)

lemma extractLoop_get (t : List Char) :
    ∀ (ps : List (List Char → Option (List Char))) (i : Nat) (h : i < ps.length)
      (m : List Char),
      (∀ (j : Nat) (hj : j < i), scanFirst (ps.get ⟨j, hj.trans h⟩) t = none) →
      scanFirst (ps.get ⟨i, h⟩) t = some m →
      extractLoop t ps = some m := by
  intro ps
  induction ps with
  | nil => intro i h; simp at h
  | cons p ps ih =>
    intro i h m hprev hok
    cases i with
    | zero =>
      simp only [List.get] at hok
      simp [extractLoop, hok]
    | succ i =>
      have h0 : scanFirst p t = none := by
        have := hprev 0 (Nat.succ_pos i)
        simpa using this
      simp only [extractLoop, h0]
      exact ih i (by simpa using h) m
        (fun j hj => by
          have := hprev (j + 1) (by omega)
          simpa using this)
        (by simpa using hok)

/-- C6: the text pattern extractor returns the first occurrence matched by
the first pattern (in the fixed order of `textPatterns`) that yields any
match; when no pattern matches, it returns the raw text content itself, so
it always produces a candidate. -/
theorem c6_theorem :
    ∀ (t : List Char),
      ((∀ p ∈ textPatterns, scanFirst p t = none) → extract_marshal_data_from_text t = t) ∧
      (∀ (i : Nat) (h : i < textPatterns.length) (m : List Char),
        (∀ (j : Nat) (hj : j < i), scanFirst (textPatterns.get ⟨j, hj.trans h⟩) t = none) →
        scanFirst (textPatterns.get ⟨i, h⟩) t = some m →
        extract_marshal_data_from_text t = m) := by
  intro t
  constructor
  · intro h
    simp [extract_marshal_data_from_text, extractLoop_eq_none t textPatterns h]
  · intro i h m hprev hok
    simp [extract_marshal_data_from_text, extractLoop_get t textPatterns i h m hprev hok]

/-- C6 witness: a text holding `marshal.loads(b'AB')` extracts `AB` through
the first pattern; a text matching no pattern is returned raw. -/
theorem c6_witness :
    extract_marshal_data_from_text tW6 = ['A', 'B'] ∧
    extract_marshal_data_from_text tW6none = tW6none := by
  constructor
  · exact (c6_theorem tW6).2 0 (by norm_num [textPatterns]) ['A', 'B']
      (fun j hj => absurd hj (by omega)) rfl
  · refine (c6_theorem tW6none).1 ?_
    intro p hp
    simp only [textPatterns, List.mem_cons, List.not_mem_nil, or_false] at hp
    rcases hp with h | h | h | h | h <;> subst h <;> rfl

lemma pyTryCatch_ok {α : Type} (body : Except PyErr α) (handler : PyErr → Except PyErr α)
    (h : ∀ e, ∃ a, handler e = .ok a) : ∃ a, pyTryCatch body handler = .ok a := by
  cases body with
  | ok a => exact ⟨a, rfl⟩
  | error e => exact h e

lemma convertStr_ok (s : List Char) : ∃ o, convertStr s = .ok o := by
  refine pyTryCatch_ok _ _ ?_
  intro e
  cases h3 : hexOnlyConv s with
  | some bs => exact ⟨some bs, by simp [h3]⟩
  | none => exact ⟨some (rawUnicodeEscape s), by simp [h3]⟩

lemma unmarshalCore_ok (loads : List Nat → Except PyErr MValue) (data : List Nat) :
    ∃ r, unmarshalCore loads data = .ok r := by
  refine pyTryCatch_ok _ _ ?_
  intro e
  exact ⟨scanAux loads data 0 (min 20 data.length), rfl⟩

/-- C7: for every input — `str` or `bytes`, truncated or malformed — and
every behaviour of the underlying decoder (including one that raises on
every buffer), `unmarshal_object` returns normally: every decode or
conversion exception is caught inside and converted into a result, never
propagated to the caller. -/
theorem c7_theorem :
    ∀ (loads : List Nat → Except PyErr MValue) (input : StrOrBytes),
      ∃ r, unmarshal_object loads input = .ok r := by
  intro loads input
  cases input with
  | bytes bs =>
    have heq : unmarshal_object loads (.bytes bs) =
        if bs.isEmpty then .ok none else unmarshalCore loads bs := rfl
    rw [heq]
    by_cases hb : bs.isEmpty
    · exact ⟨none, by simp [hb]⟩
    · obtain ⟨r, hr⟩ := unmarshalCore_ok loads bs
      exact ⟨r, by simp [hb, hr]⟩
  | str s =>
    obtain ⟨o, ho⟩ := convertStr_ok s
    have heq : unmarshal_object loads (.str s) =
        Except.bind (convertStr s) (fun data? =>
          match data? with
          | none => .ok none
          | some data => if data.isEmpty then .ok none else unmarshalCore loads data) := rfl
    rw [heq, ho]
    cases o with
    | none => exact ⟨none, rfl⟩
    | some data =>
      by_cases hb : data.isEmpty
      · exact ⟨none, by simp [Except.bind, hb]⟩
      · obtain ⟨r, hr⟩ := unmarshalCore_ok loads data
        exact ⟨r, by simp [Except.bind, hb, hr]⟩

lemma except_bind_ok {α β : Type} (a : α) (f : α → Except PyErr β) :
    (Except.ok a : Except PyErr α) >>= f = f a := rfl

/-- C8 counterexample: a decode that succeeds with the non-code value `0` is
treated as an unmarshal failure by `if not unmarshalled`: the driver returns
failure and emits nothing, although the claim says a successfully decoded
non-code value is emitted textually with a success result. -/
theorem c8_counterexample :
    decrypt_marshal_from_string wEnv loadsZero wRepr true (.bytes [1]) = .ok (false, none) ∧
    loadsZero [1] = .ok (MValue.vint 0) ∧
    isCodeV (MValue.vint 0) = false := ⟨rfl, rfl, rfl⟩

/-- C8 (amended): for every input whose decode succeeds with a *truthy*
non-code top-level value, processing is reported but not fatal — the decoded
value's textual form (header, type, `repr`) is handed to the output and the
operation returns success (even when saving fails); a falsy decoded value
(`None`, `False`, `0`, an empty string or container) is instead treated as
an unmarshal failure: nothing is emitted and failure is returned. -/
theorem c8_theorem :
    ∀ (env : RenderEnv) (loads : List Nat → Except PyErr MValue)
      (reprV : MValue → String) (saveOk : Bool) (input : StrOrBytes) (v : MValue),
      unmarshal_object loads input = .ok (some v) →
      pyFalsy v = false →
      isCodeV v = false →
      decrypt_marshal_from_string env loads reprV saveOk input =
        .ok (true, some (notCodeText reprV v)) := by
  intro env loads reprV saveOk input v hum hf hc
  simp only [decrypt_marshal_from_string, hum, except_bind_ok, hf]
  cases v with
  | vcode a vn cs n f => simp [isCodeV] at hc
  | vnone => rfl
  | vbool b => rfl
  | vint n => rfl
  | vstr s => rfl
  | vbytes bs => rfl
  | vtuple xs => rfl
  | vlist xs => rfl
  | vdict ps => rfl
  | vset xs => rfl

/-- C8 witness: decoding the truthy non-code value `7`, with saving failing,
still returns success and emits the textual form. -/
theorem c8_witness :
    decrypt_marshal_from_string wEnv loadsSeven wRepr false (.bytes [1]) =
      .ok (true, some (notCodeText wRepr (MValue.vint 7))) :=
  c8_theorem wEnv loadsSeven wRepr false (.bytes [1]) (MValue.vint 7) rfl rfl rfl

/-- C10: the string-to-bytes conversion is the identity on values that are
already byte sequences, and unmarshalling a byte-sequence input behaves
exactly as unmarshalling any string input that converts to those bytes — the
bytes are decoded as they are, with no conversion applied. -/
theorem c10_theorem :
    ∀ (loads : List Nat → Except PyErr MValue) (bs : List Nat),
      convert_string_to_bytes (.bytes bs) = .ok (some bs) ∧
      (∀ (s : List Char), convert_string_to_bytes (.str s) = .ok (some bs) →
        unmarshal_object loads (.str s) = unmarshal_object loads (.bytes bs)) := by
  intro loads bs
  refine ⟨rfl, ?_⟩
  intro s hconv
  have hc : convertStr s = .ok (some bs) := hconv
  have h1 : unmarshal_object loads (.str s) =
      Except.bind (convertStr s) (fun data? =>
        match data? with
        | none => Except.ok none
        | some data => if data.isEmpty then Except.ok none else unmarshalCore loads data) := rfl
  rw [h1, hc]
  rfl

/-- C10 witness: the bytes `[65]` pass through unchanged, and the string
`A` (which converts to `[65]` via latin-1) unmarshal-behaves identically. -/
theorem c10_witness :
    convert_string_to_bytes (.bytes [65]) = .ok (some [65]) ∧
    unmarshal_object loadsSeven (.str ['A']) = unmarshal_object loadsSeven (.bytes [65]) :=
  ⟨(c10_theorem loadsSeven [65]).1, (c10_theorem loadsSeven [65]).2 ['A'] rfl⟩

end PyMarshal
